import Mathlib

/-!
Shallow embedding of the core of the `math_engine` expression evaluator
(tokens, case-insensitive context, shunting-yard conversion to RPN, RPN
evaluation, and the factorial operator), together with theorems checking
the natural-language specification against the code.

The Rust sources embedded here are `src/math_engine/src/evaluator.rs`
(the shunting-yard module and `rpn_eval`), `src/math_engine/src/context.rs`
(`DefaultContext`, `Config`) and `src/math_engine/src/ops/mod.rs`
(`Factorial`).  A few small items live in repository files that are not
part of the provided sources (`token.rs`, `function.rs`, `error.rs`,
`utils/ignore_case_string.rs`); those definitions are modelled from the
specification and are marked `Modelled from the spec:` in their doc
comments.
-/

namespace MathEngine

/-- Modelled from the spec: the error kinds of the single error type
(`error.rs` is not under src/); section 7 of the spec lists exactly these
kinds. -/
inductive ErrorKind where
  | InvalidInput
  | InvalidExpression
  | InvalidArgumentCount
  | Overflow
  | NAN
  | NegativeValue
  | DivisionByZero
deriving DecidableEq

/-- Modelled from the spec: the single error type carrying an `ErrorKind`
and an optional human message (`error.rs` is not under src/).  Messages
that the Rust code builds with `format!` are elided to fixed strings here;
no claim depends on message contents. -/
structure Error where
  kind : ErrorKind
  msg : Option String
deriving DecidableEq

/-- Builds `Error::new(kind, msg)`. -/
def Error.new (kind : ErrorKind) (msg : String) : Error := ⟨kind, some msg⟩

/-- Builds `Error::from(kind)`. -/
def Error.fromKind (kind : ErrorKind) : Error := ⟨kind, none⟩

/-- Extracts the error kind of a result, `none` on success.  Used to state
claims that only constrain the kind of a returned error. -/
def resultKind {α : Type} : Except Error α → Option ErrorKind
  | .error e => some e.kind
  | .ok _ => none

/-- Modelled from the spec: `Precedence ∈ {LOW, MEDIUM, HIGH, VERY_HIGH}`,
totally ordered (`function.rs` is not under src/). -/
inductive Precedence where
  | LOW
  | MEDIUM
  | HIGH
  | VERYHIGH
deriving DecidableEq

/-- The position of a precedence level in the total order `LOW < MEDIUM <
HIGH < VERY_HIGH`. -/
def Precedence.toNat : Precedence → Nat
  | .LOW => 0
  | .MEDIUM => 1
  | .HIGH => 2
  | .VERYHIGH => 3

/-- Modelled from the spec: binary-operator associativity (`function.rs`
is not under src/). -/
inductive Associativity where
  | Left
  | Right
deriving DecidableEq

/-- Modelled from the spec: the notation of a unary operator, prefix or
postfix (`function.rs` is not under src/). -/
inductive Fixity where
  | pre
  | post
deriving DecidableEq

/-! ### Case-insensitive string keys

Modelled from the spec: `IgnoreCaseString`
(`utils/ignore_case_string.rs` is not under src/) is a string wrapper
that hashes and compares case-insensitively (ASCII case, per the spec
glossary) while retaining the original casing.  The five hash maps of
`DefaultContext` are modelled as association lists whose key comparison
is the case-insensitive one; like Rust's `HashMap::insert`, inserting at
an existing key replaces the value and keeps the stored key. -/

/-- The ASCII-lowercased code of a character, the normal form used for
case-insensitive comparison and hashing. -/
def charLowerNat (c : Char) : Nat :=
  if 65 ≤ c.toNat ∧ c.toNat ≤ 90 then c.toNat + 32 else c.toNat

/-- ASCII upper-casing of one character, used to state the spec's
`upper(s)`. -/
def asciiUpperChar (c : Char) : Char :=
  if 97 ≤ c.toNat ∧ c.toNat ≤ 122 then Char.ofNat (c.toNat - 32) else c

/-- ASCII upper-casing of a string, the `upper` of the spec's
case-insensitivity property. -/
def asciiUpper (s : String) : String := ⟨s.data.map asciiUpperChar⟩

/-- The case-insensitive normal form of a key. -/
def keyNorm (s : String) : List Nat := s.data.map charLowerNat

/-- Case-insensitive equality of keys, the equality of
`IgnoreCaseString`. -/
def strCiEq (a b : String) : Bool := keyNorm a == keyNorm b

/-- A name-keyed map with case-insensitive keys. -/
abbrev CiMap (α : Type) : Type := List (String × α)

/-- Lookup by case-insensitive key (`HashMap::get`). -/
def ciLookup {α : Type} : CiMap α → String → Option α
  | [], _ => none
  | (k, v) :: rest, key => if strCiEq k key then some v else ciLookup rest key

/-- Insert by case-insensitive key (`HashMap::insert`): replaces the value
at an existing key (keeping the stored key), otherwise appends. -/
def ciInsert {α : Type} : CiMap α → String → α → CiMap α
  | [], key, v => [(key, v)]
  | (k, w) :: rest, key, v =>
    if strCiEq k key then (k, v) :: rest else (k, w) :: ciInsert rest key v

/-- Membership by case-insensitive key (`HashMap::contains_key`). -/
def ciContains {α : Type} (m : CiMap α) (key : String) : Bool :=
  (ciLookup m key).isSome

/-! ### Tokens -/

/-- The token model, from spec section 3 (`token.rs` is not under src/);
the variants are used throughout `evaluator.rs`. -/
inductive Token (N : Type) where
  | Number (n : N)
  | Variable (name : String)
  | Constant (name : String)
  | BinaryOperator (name : String)
  | UnaryOperator (name : String)
  | Function (name : String)
  | ArgCount (k : Nat)
  | GroupingOpen (c : Char)
  | GroupingClose (c : Char)
  | Comma
  | Unknown
deriving DecidableEq

namespace Token

variable {N : Type}

/-- Modelled from the spec: `Token::is_number` (`token.rs` is not under
src/) — true exactly on the `Number` variant; the code comments next to
its use site (`// 2Max, 2PI, 2x, 2(4)`) list only number-led examples. -/
def is_number : Token N → Bool
  | .Number _ => true
  | _ => false

/-- Modelled from the spec: `Token::is_function` (`token.rs` is not under
src/). -/
def is_function : Token N → Bool
  | .Function _ => true
  | _ => false

/-- Modelled from the spec: `Token::is_grouping_open` (`token.rs` is not
under src/). -/
def is_grouping_open : Token N → Bool
  | .GroupingOpen _ => true
  | _ => false

/-- Modelled from the spec: `Token::is_grouping_close` (`token.rs` is not
under src/). -/
def is_grouping_close : Token N → Bool
  | .GroupingClose _ => true
  | _ => false

/-- Modelled from the spec: `Token::contains_symbol` (`token.rs` is not
under src/) — whether the token is a grouping token carrying exactly the
given character; per spec 4.2, a function call requires the next token to
be `GroupingOpen('(')` specifically. -/
def contains_symbol (t : Token N) (c : Char) : Bool :=
  match t with
  | .GroupingOpen s => s == c
  | .GroupingClose s => s == c
  | _ => false

end Token

/-! ### Callables and context -/

/-- An n-ary callable (`Function<N>` trait object): a name and
`call(args)`. -/
structure FuncObj (N : Type) where
  name : String
  call : List N → Except Error N

/-- A binary operator (`BinaryFunction<N>` trait object): name,
precedence, associativity and `call(lhs, rhs)`. -/
structure BinFnObj (N : Type) where
  name : String
  prec : Precedence
  assoc : Associativity
  call : N → N → Except Error N

/-- A unary operator (`UnaryFunction<N>` trait object): name, fixity
(the trait's notation) and `call(operand)`. -/
structure UnFnObj (N : Type) where
  name : String
  fixity : Fixity
  call : N → Except Error N

/-- A pair of grouping symbols (`GroupingSymbol` in context.rs). -/
structure GroupingSymbol where
  group_open : Char
  group_close : Char
deriving DecidableEq

/-- The evaluator configuration (`Config` in context.rs).  The
`custom_function_call` flag is modelled from the spec: it is read by the
shunting-yard in `evaluator.rs` but absent from the `Config` struct shown
in `context.rs`; per the spec it defaults to off. -/
structure Config where
  implicit_mul : Bool
  complex_number : Bool
  custom_function_call : Bool
  grouping : List (Char × GroupingSymbol)

/-- Embeds `Config::default()`: everything off, no grouping pairs registered. -/
def Config.base : Config :=
  { implicit_mul := false, complex_number := false,
    custom_function_call := false, grouping := [] }

/-- Embeds `Config::get_group_symbol`: the grouping pair registered for a
character (either member of a pair maps to the pair). -/
def Config.get_group_symbol (cfg : Config) (symbol : Char) : Option GroupingSymbol :=
  (cfg.grouping.find? (fun p => p.1 == symbol)).map (·.2)

/-- Modelled from the spec: `Config::get_group_open_for` (used by the
shunting-yard but not among the `Config` methods under src/) — the open
character of the pair registered for a character; per spec 3, lookup by
either character yields the pair. -/
def Config.get_group_open_for (cfg : Config) (symbol : Char) : Option Char :=
  (cfg.get_group_symbol symbol).map (·.group_open)

/-- Embeds `Config::new()`: the default configuration with the parentheses pair
registered (the result of `Config::default().with_group_symbol('(', ')')`). -/
def Config.new : Config :=
  { Config.base with grouping := [('(', ⟨'(', ')'⟩), (')', ⟨'(', ')'⟩)] }

/-- The default context (`DefaultContext` in context.rs): five
case-insensitively keyed maps plus the configuration. -/
structure DefaultContext (N : Type) where
  /-- The variables map (field `variables` in the source; `variables` is a
  reserved word in Lean). -/
  vars : CiMap N
  /-- The constants map (field `constants` in the source). -/
  consts : CiMap N
  functions : CiMap (FuncObj N)
  binary_functions : CiMap (BinFnObj N)
  unary_functions : CiMap (UnFnObj N)
  config : Config

namespace DefaultContext

variable {N : Type}

/-- Embeds `DefaultContext::empty()`: empty maps, default configuration. -/
def empty : DefaultContext N :=
  { vars := [], consts := [], functions := [],
    binary_functions := [], unary_functions := [], config := Config.base }

/-- Embeds `DefaultContext::new_with_config(config)`: empty maps with the given
configuration. -/
def new_with_config (config : Config) : DefaultContext N :=
  { vars := [], consts := [], functions := [],
    binary_functions := [], unary_functions := [], config := config }

/-- Embeds `DefaultContext::get_variable`. -/
def get_variable (ctx : DefaultContext N) (name : String) : Option N :=
  ciLookup ctx.vars name

/-- Embeds `DefaultContext::get_constant`. -/
def get_constant (ctx : DefaultContext N) (name : String) : Option N :=
  ciLookup ctx.consts name

/-- Embeds `DefaultContext::get_function`. -/
def get_function (ctx : DefaultContext N) (name : String) : Option (FuncObj N) :=
  ciLookup ctx.functions name

/-- Embeds `DefaultContext::get_binary_function`. -/
def get_binary_function (ctx : DefaultContext N) (name : String) : Option (BinFnObj N) :=
  ciLookup ctx.binary_functions name

/-- Embeds `DefaultContext::get_unary_function`. -/
def get_unary_function (ctx : DefaultContext N) (name : String) : Option (UnFnObj N) :=
  ciLookup ctx.unary_functions name

/-- Embeds `DefaultContext::add_constant`: inserts unconditionally (the source
performs no check against the variables map). -/
def add_constant (ctx : DefaultContext N) (name : String) (value : N) : DefaultContext N :=
  { ctx with consts := ciInsert ctx.consts name value }

/-- Embeds `DefaultContext::set_variable`: the source panics (`panic!`) when a
constant with the same (case-insensitive) name exists, otherwise inserts
and returns the previous value.  The panic is modelled as `none`; a
`some` result carries the updated context and `HashMap::insert`'s return
value. -/
def set_variable (ctx : DefaultContext N) (name : String) (value : N) :
    Option (DefaultContext N × Option N) :=
  if ciContains ctx.consts name then none
  else some ({ ctx with vars := ciInsert ctx.vars name value },
             ciLookup ctx.vars name)

/-- Embeds `DefaultContext::add_function` (via `add_function_as`): the source
panics when a function with that name already exists; the panic is
modelled as `none`. -/
def add_function (ctx : DefaultContext N) (f : FuncObj N) : Option (DefaultContext N) :=
  if ciContains ctx.functions f.name then none
  else some { ctx with functions := ciInsert ctx.functions f.name f }

/-- Embeds `DefaultContext::add_binary_function`: panic on duplicates modelled as
`none`. -/
def add_binary_function (ctx : DefaultContext N) (f : BinFnObj N) :
    Option (DefaultContext N) :=
  if ciContains ctx.binary_functions f.name then none
  else some { ctx with binary_functions := ciInsert ctx.binary_functions f.name f }

/-- Embeds `DefaultContext::add_unary_function`: panic on duplicates modelled as
`none`. -/
def add_unary_function (ctx : DefaultContext N) (f : UnFnObj N) :
    Option (DefaultContext N) :=
  if ciContains ctx.unary_functions f.name then none
  else some { ctx with unary_functions := ciInsert ctx.unary_functions f.name f }

end DefaultContext

/-! ### Shunting-yard (module `shunting_yard` of evaluator.rs)

The Rust `infix_to_rpn` owns four `Vec` stacks: `output`, `operators`,
`arg_count` and `grouping_count`.  Stacks are modelled as lists whose
head is the `Vec`'s last element (the stack top), except `output`, which
is only ever pushed at the end and is kept in source order. -/

/-- The mutable state of the shunting-yard loop. -/
structure SYState (N : Type) where
  output : List (Token N)
  operators : List (Token N)
  arg_count : List Nat
  grouping_count : List Nat

variable {N : Type}

/-- Embeds `push_number`: push the atom to `output`; if the operator-stack top is
a unary operator known to the context, pop it to `output` immediately.
Returns the new `(output, operators)`. -/
def push_number (ctx : DefaultContext N) (output operators : List (Token N))
    (token : Token N) : List (Token N) × List (Token N) :=
  let out1 := output ++ [token]
  match operators with
  | .UnaryOperator op :: rest =>
    if (ctx.get_unary_function op).isSome then (out1 ++ [.UnaryOperator op], rest)
    else (out1, operators)
  | _ => (out1, operators)

/-- Embeds `push_unary_function`: a prefix unary is pushed to `operators`; a
postfix unary goes directly to `output`, failing on an empty `output`;
an unregistered name fails with `InvalidInput`. -/
def push_unary_function (ctx : DefaultContext N) (output operators : List (Token N))
    (token : Token N) (name : String) :
    Except Error (List (Token N) × List (Token N)) :=
  match ctx.get_unary_function name with
  | some unary =>
    match unary.fixity with
    | .pre => .ok (output, token :: operators)
    | .post =>
      if !output.isEmpty then .ok (output ++ [token], operators)
      else .error (Error.new .InvalidExpression "Misplace unary operator")
  | none => .error (Error.new .InvalidInput ("Unary operator `" ++ name ++ "` not found"))

/-- The `while let Some(t) = operators.last()` loop of
`push_binary_function`: pop operators to `output` while the top is not a
grouping-open and is a function, or a binary operator of higher
precedence (or equal precedence and left-associative).  Returns the new
`(output, operators)`. -/
def binary_pop_loop (ctx : DefaultContext N) (operator : BinFnObj N) :
    List (Token N) → List (Token N) → List (Token N) × List (Token N)
  | output, [] => (output, [])
  | output, t :: rest =>
    match t with
    | .GroupingOpen c => (output, .GroupingOpen c :: rest)
    | _ =>
      if t.is_function then binary_pop_loop ctx operator (output ++ [t]) rest
      else
        match t with
        | .BinaryOperator op =>
          match ctx.get_binary_function op with
          | some top =>
            if top.prec.toNat > operator.prec.toNat
                ∨ (top.prec = operator.prec ∧ top.assoc = .Left) then
              binary_pop_loop ctx operator (output ++ [.BinaryOperator op]) rest
            else (output, .BinaryOperator op :: rest)
          | none => (output, .BinaryOperator op :: rest)
        | _ => (output, t :: rest)

/-- Embeds `push_binary_function`: fail with `InvalidInput` when the operator is
not registered; otherwise run the precedence pop loop and push the new
operator token. -/
def push_binary_function (ctx : DefaultContext N) (output operators : List (Token N))
    (token : Token N) (name : String) :
    Except Error (List (Token N) × List (Token N)) :=
  match ctx.get_binary_function name with
  | none => .error (Error.new .InvalidInput ("Binary function `" ++ name ++ "` not found"))
  | some operator =>
    let r := binary_pop_loop ctx operator output operators
    .ok (r.1, token :: r.2)

/-- The body run when the matching grouping-open has been found by the
pop loop of `push_grouping_close`: when `arg_count` is non-empty and the
token beneath the open is a `Function`, pop the top of `arg_count`,
emit `ArgCount(top + 1)` and the function to `output`; otherwise leave
everything as is.  Returns the new `(output, operators, arg_count)`. -/
def grouping_close_fn_pop (output ops : List (Token N)) (arg_count : List Nat) :
    List (Token N) × List (Token N) × List Nat :=
  if !arg_count.isEmpty then
    match ops with
    | .Function fname :: rest2 =>
      (output ++ [.ArgCount (arg_count.headD 0 + 1), .Function fname],
       rest2, arg_count.tail)
    | _ => (output, ops, arg_count)
  else (output, ops, arg_count)

/-- The pop loop of `push_grouping_close`: pop operators to `output`
until a grouping-open is popped.  A grouping-open whose configured pair
closes with `group_close` succeeds (running `grouping_close_fn_pop`);
any other grouping-open, or exhausting the stack, fails with
`InvalidExpression` (the `is_group_open` flag of the source). -/
def grouping_close_pop_loop (ctx : DefaultContext N) (group_close : Char) :
    List (Token N) → List (Token N) → List Nat →
    Except Error (List (Token N) × List (Token N) × List Nat)
  | _, [], _ => .error (Error.new .InvalidExpression "Misplace grouping symbol")
  | output, t :: rest, arg_count =>
    match t with
    | .GroupingOpen c =>
      match ctx.config.get_group_symbol c with
      | some grouping =>
        if grouping.group_close == group_close then
          .ok (grouping_close_fn_pop output rest arg_count)
        else .error (Error.new .InvalidExpression "Misplace grouping symbol")
      | none => .error (Error.new .InvalidExpression "Misplace grouping symbol")
    | _ => grouping_close_pop_loop ctx group_close (output ++ [t]) rest arg_count

/-- Embeds `check_comma_position`: a comma may not start the expression, follow a
grouping-open, precede a grouping-close, or sit inside a grouping that
was not opened by a function (the top of `grouping_count` recording the
position of the innermost open). -/
def check_comma_position (tokens : List (Token N)) (grouping_count : List Nat)
    (pos : Nat) : Except Error Unit :=
  if pos = 0 then .error (Error.new .InvalidInput "Misplaced comma")
  else if (tokens[pos - 1]?).elim false Token.is_grouping_open then
    .error (Error.new .InvalidInput "Misplaced comma: `(,`")
  else if (tokens[pos + 1]?).elim false Token.is_grouping_close then
    .error (Error.new .InvalidInput "Misplaced comma: `,)`")
  else if !grouping_count.isEmpty then
    if !((tokens[grouping_count.headD 0 - 1]?).elim false Token.is_function) then
      .error (Error.new .InvalidInput "Misplaced comma")
    else .ok ()
  else .ok ()

/-- The pop loop of `push_comma`: pop operators to `output` until a
grouping-open is on top (left in place); the Bool records whether one was
found. -/
def comma_pop_loop : List (Token N) → List (Token N) →
    List (Token N) × List (Token N) × Bool
  | output, [] => (output, [], false)
  | output, t :: rest =>
    match t with
    | .GroupingOpen c => (output, .GroupingOpen c :: rest, true)
    | _ => comma_pop_loop (output ++ [t]) rest

/-- Embeds `push_comma`: increment the top of `arg_count` (failing when there is
none), then pop operators until a grouping-open is on top, failing when
none is present. -/
def push_comma (output operators : List (Token N)) (arg_count : List Nat) :
    Except Error (List (Token N) × List (Token N) × List Nat) :=
  match arg_count with
  | [] => .error (Error.new .InvalidExpression "Comma found but not function")
  | n :: restAC =>
    let r := comma_pop_loop output operators
    if r.2.2 then .ok (r.1, r.2.1, (n + 1) :: restAC)
    else .error (Error.new .InvalidExpression "Misplace comma")

/-- The implicit-multiplication injection performed after each token when
`implicit_mul` is enabled: after a `Number` followed by a function,
constant, variable or grouping-open, or after a grouping-close followed
by a number, variable, constant, function or grouping-open, a
`BinaryOperator("*")` is pushed onto `operators` (without any precedence
popping). -/
def implicit_mul_inject (cfg : Config) (token : Token N) (next : Option (Token N))
    (operators : List (Token N)) : List (Token N) :=
  if cfg.implicit_mul then
    if token.is_number then
      match next with
      | some (.Function _) | some (.Constant _) | some (.Variable _)
      | some (.GroupingOpen _) => .BinaryOperator "*" :: operators
      | _ => operators
    else if token.is_grouping_close then
      match next with
      | some (.Number _) | some (.Variable _) | some (.Constant _)
      | some (.Function _) | some (.GroupingOpen _) => .BinaryOperator "*" :: operators
      | _ => operators
    else operators
  else operators

/-- One iteration of the `while let Some((pos, token))` loop of
`infix_to_rpn` (without the trailing implicit-multiplication injection):
dispatch on the token kind.  `peek` is the next token, `tokens` the full
input (indexed for the empty-grouping and comma checks). -/
def sy_step (ctx : DefaultContext N) (tokens : List (Token N)) (pos : Nat)
    (token : Token N) (peek : Option (Token N)) (st : SYState N) :
    Except Error (SYState N) :=
  match token with
  | .Number _ | .Variable _ | .Constant _ =>
    let r := push_number ctx st.output st.operators token
    .ok { st with output := r.1, operators := r.2 }
  | .BinaryOperator name =>
    (push_binary_function ctx st.output st.operators token name).map
      (fun r => { st with output := r.1, operators := r.2 })
  | .UnaryOperator name =>
    (push_unary_function ctx st.output st.operators token name).map
      (fun r => { st with output := r.1, operators := r.2 })
  | .Function name =>
    -- function arguments are only allowed inside `(...)` unless
    -- `custom_function_call` is enabled
    if !ctx.config.custom_function_call
        && !(peek.elim false (fun t => t.contains_symbol '(')) then
      .error (Error.new .InvalidInput
        ("Function arguments of `" ++ name ++ "` are not within a parentheses"))
    else
      .ok { st with arg_count := 0 :: st.arg_count,
                    operators := token :: st.operators }
  | .GroupingOpen _ =>
    let gc := if !st.arg_count.isEmpty then pos :: st.grouping_count
              else st.grouping_count
    .ok { st with operators := token :: st.operators, grouping_count := gc }
  | .GroupingClose c =>
    match grouping_close_pop_loop ctx c st.output st.operators st.arg_count with
    | .error e => .error e
    | .ok (out1, ops1, ac1) =>
      let st1 : SYState N :=
        { output := out1, operators := ops1, arg_count := ac1,
          grouping_count :=
            if !ac1.isEmpty then st.grouping_count.tail else st.grouping_count }
      -- empty-grouping detection, e.g. `Random(())`, `()+2`; note the
      -- source guard `pos > 1`
      if pos > 1 then
        match tokens.getD (pos - 1) .Unknown with
        | .GroupingOpen s =>
          if ((ctx.config.get_group_open_for c).elim false (fun v => v == s))
              && !(tokens.getD (pos - 2) .Unknown).is_function then
            .error (Error.new .InvalidInput "Empty grouping symbols")
          else .ok st1
        | _ => .ok st1
      else .ok st1
  | .Comma =>
    match check_comma_position tokens st.grouping_count pos with
    | .error e => .error e
    | .ok _ =>
      (push_comma st.output st.operators st.arg_count).map
        (fun r => { st with output := r.1, operators := r.2.1, arg_count := r.2.2 })
  | _ => .error (Error.new .InvalidInput "Invalid token")

/-- The final drain of `infix_to_rpn`: pop every remaining operator to
`output`.  The source's guard is the (apparently mistyped) repeated test
`t.is_grouping_close() || t.is_grouping_close()`, reproduced verbatim:
a leftover grouping-open is therefore pushed into the output instead of
being rejected. -/
def drain : List (Token N) → List (Token N) → Except Error (List (Token N))
  | output, [] => .ok output
  | output, t :: rest =>
    if t.is_grouping_close || t.is_grouping_close then
      .error (Error.new .InvalidExpression "Misplace parentheses")
    else drain (output ++ [t]) rest

/-- The token loop of `infix_to_rpn`: process the remaining tokens one at
a time (`pos` is the index of the first remaining token in `tokens`),
apply the implicit-multiplication injection after each, and drain the
operator stack when the input is exhausted. -/
def syLoop (ctx : DefaultContext N) (tokens : List (Token N)) :
    Nat → List (Token N) → SYState N → Except Error (List (Token N))
  | _, [], st => drain st.output st.operators
  | pos, t :: rest, st =>
    match sy_step ctx tokens pos t rest.head? st with
    | .error e => .error e
    | .ok st1 =>
      syLoop ctx tokens (pos + 1) rest
        { st1 with operators := implicit_mul_inject ctx.config t rest.head? st1.operators }

/-- Embeds `infix_to_rpn(tokens, context)`: convert an infix token sequence to
Reverse Polish Notation by the shunting-yard algorithm. -/
def infix_to_rpn (tokens : List (Token N)) (ctx : DefaultContext N) :
    Except Error (List (Token N)) :=
  syLoop ctx tokens 0 tokens ⟨[], [], [], []⟩

/-! ### RPN evaluation (`rpn_eval` of evaluator.rs) -/

/-- The token loop of `rpn_eval` over the converted RPN sequence:
`values` is the value stack (head = top), `argc` the single-slot argument
count.  In the `Function` branch the source pops `argc` values but, on an
empty stack, merely constructs an `InvalidArgumentCount` error without
returning it; the function is then invoked with the values that were
available.  (The `debug_assert` on `ArgCount` is a no-op in release
builds and is not modelled.) -/
def rpn_eval_loop (ctx : DefaultContext N) :
    List (Token N) → List N → Option Nat → Except Error N
  | [], values, _ =>
    match values with
    | [v] => .ok v
    | _ => .error (Error.fromKind .InvalidExpression)
  | t :: rest, values, argc =>
    match t with
    | .Number n => rpn_eval_loop ctx rest (n :: values) argc
    | .Variable name =>
      match ctx.get_variable name with
      | some n => rpn_eval_loop ctx rest (n :: values) argc
      | none => .error (Error.new .InvalidInput ("Variable `" ++ name ++ "` not found"))
    | .Constant name =>
      match ctx.get_constant name with
      | some n => rpn_eval_loop ctx rest (n :: values) argc
      | none => .error (Error.new .InvalidInput ("Constant `" ++ name ++ "` not found"))
    | .ArgCount n => rpn_eval_loop ctx rest values (some n)
    | .UnaryOperator name =>
      match ctx.get_unary_function name with
      | none => .error (Error.new .InvalidInput ("Unary operator `" ++ name ++ "` not found"))
      | some func =>
        match values with
        | x :: vrest =>
          match func.call x with
          | .ok r => rpn_eval_loop ctx rest (r :: vrest) argc
          | .error e => .error e
        | [] => .error (Error.new .InvalidExpression "tokens")
    | .BinaryOperator name =>
      match ctx.get_binary_function name with
      | none => .error (Error.new .InvalidInput ("Binary operator `" ++ name ++ "` not found"))
      | some func =>
        match values with
        | x :: y :: vrest =>
          match func.call y x with
          | .ok r => rpn_eval_loop ctx rest (r :: vrest) argc
          | .error e => .error e
        | _ => .error (Error.new .InvalidExpression "tokens")
    | .Function name =>
      match ctx.get_function name with
      | none => .error (Error.new .InvalidInput ("Function `" ++ name ++ "` not found"))
      | some func =>
        match argc with
        | none =>
          .error (Error.new .InvalidInput
            ("Cannot evaluate function `" ++ name ++ "`, unknown number of arguments"))
        | some n =>
          -- pop up to `n` values; underflow constructs an error that the
          -- source never returns, so the pops simply stop producing
          let args := values.take n
          match func.call args.reverse with
          | .ok r => rpn_eval_loop ctx rest (r :: values.drop n) none
          | .error e => .error e
    | _ => .error (Error.new .InvalidInput "Unknown token")

/-- Embeds `rpn_eval(tokens, context)`: convert the infix tokens to RPN and
evaluate them against the context. -/
def rpn_eval (tokens : List (Token N)) (ctx : DefaultContext N) : Except Error N :=
  match infix_to_rpn tokens ctx with
  | .error e => .error e
  | .ok rpn => rpn_eval_loop ctx rpn [] none

/-! ### The factorial operator (`Factorial` in ops/mod.rs)

`Factorial::call` is generic over `N`; it is embedded at the
mathematical integers.  Its two Γ-function branches convert through
`f64` and call `gamma` (`utils/gamma.rs`, floating-point code outside
src/); they are kept as explicit parameters `gammaQuick value`
(the `x < 1` quick path, `Γ(value + 1)`) and `gammaFixup total next`
(the post-loop fixup, `total * Γ(next + 1)`), and the theorems below
hold for every choice of these parameters because neither branch is
reachable on integer operands. -/

/-- The body of the `while next >= 1` product loop of `Factorial::call`,
with an explicit iteration bound so the kernel can evaluate it; the loop
runs at most `next.toNat` times because `next` decreases by one per
iteration and the guard is `1 ≤ next`. -/
def factorial_go : Nat → Int → Int → Int × Int
  | 0, total, next => (total, next)
  | fuel + 1, total, next =>
    if 1 ≤ next then factorial_go fuel (total * next) (next - 1)
    else (total, next)

/-- The `while next >= 1` product loop of `Factorial::call`: returns the
final `(total, next)`. -/
def factorial_loop (total next : Int) : Int × Int :=
  factorial_go next.toNat total next

/-- Embeds `Factorial::call(value)` at `N = Int` (Γ-branches parametrized, see
above): negative operands fail with `NegativeValue`; `0` and `1` map to
`1`; otherwise the iterative product loop runs and, when it stops at a
non-zero `next`, the Γ-fixup applies. -/
def Factorial.call (gammaQuick : Int → Except Error Int)
    (gammaFixup : Int → Int → Except Error Int) (value : Int) : Except Error Int :=
  if value < 0 then .error (Error.fromKind .NegativeValue)
  else if value = 0 ∨ value = 1 then .ok 1
  else if value < 1 then gammaQuick value
  else
    let r := factorial_loop value (value - 1)
    if r.2 ≠ 0 then gammaFixup r.1 r.2
    else .ok r.1

/-! ### Context operations, for the variable/constant exclusivity claim

The public mutating operations of a `DefaultContext` are reified so that
reachable states can be quantified over.  A `panic!` (from
`set_variable` on a constant clash, or from the duplicate check of the
`add_*_function` family) produces no successor state, hence the `Option`
in `applyOp`. -/

/-- One public mutating context operation. -/
inductive CtxOp (N : Type) where
  | addConstant (name : String) (value : N)
  | setVariable (name : String) (value : N)
  | addFunction (f : FuncObj N)
  | addBinaryFunction (f : BinFnObj N)
  | addUnaryFunction (f : UnFnObj N)

/-- Apply one operation; `none` when the operation panics. -/
def applyOp (ctx : DefaultContext N) : CtxOp N → Option (DefaultContext N)
  | .addConstant name v => some (ctx.add_constant name v)
  | .setVariable name v => (ctx.set_variable name v).map Prod.fst
  | .addFunction f => ctx.add_function f
  | .addBinaryFunction f => ctx.add_binary_function f
  | .addUnaryFunction f => ctx.add_unary_function f

/-- Run a sequence of operations; `none` as soon as one panics. -/
def execOps (ctx : DefaultContext N) : List (CtxOp N) → Option (DefaultContext N)
  | [] => some ctx
  | op :: rest =>
    match applyOp ctx op with
    | some c => execOps c rest
    | none => none

/-- Whether every `add_constant` in the sequence is performed with a name
that is not (case-insensitively) a variable at that moment — the guard
under which the exclusivity invariant is preserved. -/
def addConstSafe (ctx : DefaultContext N) : List (CtxOp N) → Bool
  | [] => true
  | op :: rest =>
    let hd : Bool :=
      match op with
      | .addConstant name _ => !(ciContains ctx.vars name)
      | _ => true
    hd && (match applyOp ctx op with
           | some c => addConstSafe c rest
           | none => true)

/-- The variable/constant exclusivity invariant: no variable name is
(case-insensitively) also a constant name. -/
def exclusiveB (ctx : DefaultContext N) : Bool :=
  ctx.vars.all (fun e => !(ciContains ctx.consts e.1))

/-! ### Concrete contexts used by witnesses and counterexamples

These register the standard operators of `DefaultContext::new_checked`
that the claims exercise, with the precedences and associativities of
spec section 4.4 (`+` `-` LOW left, `*` `/` `mod` MEDIUM left, `^` HIGH
right; prefix `+`/`-`, postfix `!`). -/

/-- The `+` operator (`AddOperator`). -/
def plusFn : BinFnObj Int :=
  { name := "+", prec := .LOW, assoc := .Left, call := fun a b => .ok (a + b) }

/-- The `-` operator (`SubOperator`). -/
def minusFn : BinFnObj Int :=
  { name := "-", prec := .LOW, assoc := .Left, call := fun a b => .ok (a - b) }

/-- The `*` operator (`MulOperator`). -/
def mulFn : BinFnObj Int :=
  { name := "*", prec := .MEDIUM, assoc := .Left, call := fun a b => .ok (a * b) }

/-- The `/` operator (`DivOperator`); division by zero fails as in the
checked backend. -/
def divFn : BinFnObj Int :=
  { name := "/", prec := .MEDIUM, assoc := .Left,
    call := fun a b =>
      if b = 0 then .error (Error.fromKind .DivisionByZero) else .ok (a / b) }

/-- The `^` operator (`PowOperator`: HIGH precedence, right-associative). -/
def powFn : BinFnObj Int :=
  { name := "^", prec := .HIGH, assoc := .Right,
    call := fun a b => .ok (a ^ b.toNat) }

/-- The prefix `+` (`UnaryPlus`). -/
def uplusFn : UnFnObj Int := { name := "+", fixity := .pre, call := fun a => .ok a }

/-- The prefix `-` (`UnaryMinus`). -/
def uminusFn : UnFnObj Int := { name := "-", fixity := .pre, call := fun a => .ok (-a) }

/-- The postfix `!` (`Factorial`), at integer operands. -/
def factFn : UnFnObj Int :=
  { name := "!", fixity := .post,
    call := Factorial.call (fun _ => .error (Error.fromKind .Overflow))
                           (fun _ _ => .error (Error.fromKind .Overflow)) }

/-- The variadic `max` (`MaxFunction`): rejects an empty argument list. -/
def maxFn : FuncObj Int :=
  { name := "max",
    call := fun args =>
      match args with
      | [] => .error (Error.fromKind .InvalidArgumentCount)
      | a :: rest => .ok (rest.foldl (fun m n => if n > m then n else m) a) }

/-- A variadic summing function accepting any argument count (registered
through the public `add_function` API; used to exercise the
argument-underflow path of `rpn_eval`). -/
def sumAllFn : FuncObj Int :=
  { name := "f", call := fun args => .ok (args.foldl (· + ·) 0) }

/-- A context with the standard arithmetic operators and `max`
registered, default configuration. -/
def arithCtx : DefaultContext Int :=
  { vars := [], consts := [],
    functions := [("max", maxFn)],
    binary_functions :=
      [("+", plusFn), ("-", minusFn), ("*", mulFn), ("/", divFn), ("^", powFn)],
    unary_functions := [("+", uplusFn), ("-", uminusFn), ("!", factFn)],
    config := Config.new }

/-- The context `arithCtx` with `implicit_mul` enabled. -/
def mulCtx : DefaultContext Int :=
  { arithCtx with config := { Config.new with implicit_mul := true } }

/-- The context `arithCtx` with the variadic `f` registered. -/
def sumCtx : DefaultContext Int :=
  { arithCtx with functions := [("max", maxFn), ("f", sumAllFn)] }

/-- An empty context to which the constant `PI` has been added. -/
def piCtx : DefaultContext Int := DefaultContext.empty.add_constant "PI" 3

/-! ### Lemmas about case-insensitive keys -/

/-- Applying `Char.ofNat` to a valid codepoint round-trips through `toNat`. -/
theorem toNat_ofNat_valid (n : Nat) (h : n.isValidChar) : (Char.ofNat n).toNat = n := by
  rw [Char.ofNat, dif_pos h]
  rfl

/-- ASCII upper-casing does not change the case-insensitive normal form
of a character. -/
theorem charLowerNat_asciiUpperChar (c : Char) :
    charLowerNat (asciiUpperChar c) = charLowerNat c := by
  unfold asciiUpperChar
  by_cases h : 97 ≤ c.toNat ∧ c.toNat ≤ 122
  · rw [if_pos h]
    unfold charLowerNat
    have hv : (c.toNat - 32).isValidChar := Or.inl (by omega)
    rw [toNat_ofNat_valid _ hv]
    rw [if_pos (show 65 ≤ c.toNat - 32 ∧ c.toNat - 32 ≤ 90 by omega),
        if_neg (show ¬(65 ≤ c.toNat ∧ c.toNat ≤ 90) by omega)]
    omega
  · rw [if_neg h]

/-- ASCII upper-casing does not change the case-insensitive normal form
of a key. -/
theorem keyNorm_asciiUpper (s : String) : keyNorm (asciiUpper s) = keyNorm s := by
  show (s.data.map asciiUpperChar).map charLowerNat = s.data.map charLowerNat
  induction s.data with
  | nil => rfl
  | cons c cs ih => simp [List.map_cons, charLowerNat_asciiUpperChar, ih]

/-- Case-insensitive key equality is equality of normal forms. -/
theorem strCiEq_iff {a b : String} : strCiEq a b = true ↔ keyNorm a = keyNorm b := by
  simp [strCiEq]

/-- Lookup only depends on the case-insensitive normal form of the key. -/
theorem ciLookup_congr {α : Type} (m : CiMap α) {a b : String}
    (h : keyNorm a = keyNorm b) : ciLookup m a = ciLookup m b := by
  induction m with
  | nil => rfl
  | cons kv rest ih =>
    obtain ⟨k, v⟩ := kv
    have heq : strCiEq k a = strCiEq k b := by simp [strCiEq, h]
    simp only [ciLookup, heq]
    cases h2 : strCiEq k b <;> simp [h2, ih]

/-- Membership after an insert: the new key, case-insensitively, or an
old member. -/
theorem ciContains_ciInsert {α : Type} (m : CiMap α) (k : String) (v : α)
    (key : String) :
    ciContains (ciInsert m k v) key = (strCiEq k key || ciContains m key) := by
  induction m with
  | nil =>
    simp only [ciInsert, ciContains, ciLookup, Bool.or_false]
    cases h : strCiEq k key <;> simp [h]
  | cons kv rest ih =>
    obtain ⟨k0, v0⟩ := kv
    by_cases h : strCiEq k0 k = true
    · simp only [ciInsert, if_pos h, ciContains, ciLookup]
      by_cases h2 : strCiEq k0 key = true
      · have hk : strCiEq k key = true :=
          strCiEq_iff.mpr ((strCiEq_iff.mp h).symm.trans (strCiEq_iff.mp h2))
        simp [h2, hk]
      · have hk : strCiEq k key = false := by
          rw [Bool.eq_false_iff]
          intro hc
          exact h2 (strCiEq_iff.mpr ((strCiEq_iff.mp h).trans (strCiEq_iff.mp hc)))
        simp [h2, hk]
    · simp only [ciInsert, if_neg h, ciContains, ciLookup]
      by_cases h2 : strCiEq k0 key = true
      · simp [h2]
      · simpa [h2, ciContains] using ih

/-- A member whose key matches case-insensitively witnesses membership. -/
theorem ciContains_of_mem {α : Type} {m : CiMap α} {e : String × α} (he : e ∈ m)
    {key : String} (h : strCiEq e.1 key = true) : ciContains m key = true := by
  induction m with
  | nil => cases he
  | cons kv rest ih =>
    obtain ⟨k0, v0⟩ := kv
    simp only [ciContains, ciLookup]
    by_cases h2 : strCiEq k0 key = true
    · simp [h2]
    · rcases List.mem_cons.mp he with rfl | hmem
      · exact absurd h h2
      · simpa [h2, ciContains] using ih hmem

/-- A key-predicate holding on a map and on the inserted key holds on the
map after the insert. -/
theorem ciInsert_all {α : Type} {m : CiMap α} {p : String → Bool} {k : String}
    {v : α} (hm : m.all (fun e => p e.1) = true) (hk : p k = true) :
    (ciInsert m k v).all (fun e => p e.1) = true := by
  induction m with
  | nil => simpa [ciInsert]
  | cons kv rest ih =>
    obtain ⟨k0, v0⟩ := kv
    simp only [List.all_cons, Bool.and_eq_true] at hm
    by_cases h : strCiEq k0 k = true
    · simp [ciInsert, h, List.all_cons, hm.1, hm.2]
    · simp [ciInsert, h, List.all_cons, hm.1, ih hm.2]

/-! ### Exclusivity preservation lemmas (claim C2) -/

/-- Lemma: `add_constant` preserves the exclusivity invariant when the added
name is not (case-insensitively) a variable. -/
theorem exclusiveB_add_constant {N : Type} {ctx : DefaultContext N} {name : String}
    {v : N} (hx : exclusiveB ctx = true) (hn : ciContains ctx.vars name = false) :
    exclusiveB (ctx.add_constant name v) = true := by
  unfold exclusiveB DefaultContext.add_constant
  unfold exclusiveB at hx
  rw [List.all_eq_true] at hx ⊢
  intro e he
  have h1 := hx e he
  rw [Bool.not_eq_true'] at h1 ⊢
  rw [ciContains_ciInsert]
  have h2 : strCiEq name e.1 = false := by
    rw [Bool.eq_false_iff]
    intro hc
    have hmem : ciContains ctx.vars name = true :=
      ciContains_of_mem he (strCiEq_iff.mpr (strCiEq_iff.mp hc).symm)
    rw [hn] at hmem
    cases hmem
  simp [h2, h1]

/-- A successful `set_variable` preserves the exclusivity invariant. -/
theorem exclusiveB_set_variable {N : Type} {ctx ctx2 : DefaultContext N}
    {name : String} {v : N} (hx : exclusiveB ctx = true)
    (h : (ctx.set_variable name v).map Prod.fst = some ctx2) :
    exclusiveB ctx2 = true := by
  unfold DefaultContext.set_variable at h
  by_cases hc : ciContains ctx.consts name = true
  · simp [hc] at h
  · rw [Bool.not_eq_true] at hc
    simp only [hc, Bool.false_eq_true, if_false, Option.map_some', Option.some.injEq] at h
    rw [← h]
    unfold exclusiveB at hx ⊢
    exact ciInsert_all (p := fun key => !ciContains ctx.consts key) hx
      (by show (!ciContains ctx.consts name) = true; rw [hc]; rfl)

/-- One applied operation preserves the exclusivity invariant, assuming
the `add_constant` guard. -/
theorem exclusiveB_applyOp {N : Type} {ctx c : DefaultContext N} {op : CtxOp N}
    (hx : exclusiveB ctx = true)
    (hguard : (match op with
               | .addConstant name _ => !(ciContains ctx.vars name)
               | _ => true) = true)
    (happ : applyOp ctx op = some c) : exclusiveB c = true := by
  cases op with
  | addConstant name v =>
    simp only [applyOp, Option.some.injEq] at happ
    rw [← happ]
    exact exclusiveB_add_constant hx (by simpa using hguard)
  | setVariable name v =>
    simp only [applyOp] at happ
    exact exclusiveB_set_variable hx happ
  | addFunction f =>
    simp only [applyOp, DefaultContext.add_function] at happ
    split at happ
    · cases happ
    · injection happ with h
      rw [← h]
      exact hx
  | addBinaryFunction f =>
    simp only [applyOp, DefaultContext.add_binary_function] at happ
    split at happ
    · cases happ
    · injection happ with h
      rw [← h]
      exact hx
  | addUnaryFunction f =>
    simp only [applyOp, DefaultContext.add_unary_function] at happ
    split at happ
    · cases happ
    · injection happ with h
      rw [← h]
      exact hx

/-! ### The claims -/

/-- C9: for every name `s`, `get_constant(s)` and `get_constant(upper(s))`
return the same value (so `pi`, `PI`, `Pi` all address the same entry).
Confirmed: lookup only depends on the ASCII-case-insensitive normal form
of the key. -/
theorem claimC9_get_constant_case_insensitive (ctx : DefaultContext Int) (s : String) :
    ctx.get_constant s = ctx.get_constant (asciiUpper s) :=
  (ciLookup_congr ctx.consts (keyNorm_asciiUpper s)).symm

/-- C3 counterexample: `set_variable` on a name that clashes with an
existing constant (in any casing) does not return an error of kind
`InvalidInput`: the source `panic!`s, modelled as `none` — there is no
returned error at all. -/
theorem claimC3_counterexample : piCtx.set_variable "pi" 5 = none := rfl

/-- C3 (amended): for every context in which a constant named `k` exists
(compared case-insensitively) and every value `v`, `set_variable(k, v)`
panics (modelled as `none`) instead of returning an `InvalidInput` error;
the panic occurs before any mutation, so no updated context exists. -/
theorem claimC3_set_variable_panics (ctx : DefaultContext Int) (name : String)
    (v : Int) (h : ciContains ctx.consts name = true) :
    ctx.set_variable name v = none := by
  simp [DefaultContext.set_variable, h]

/-- C3 witness: `piCtx` holds the constant `PI`; setting the variable
`Pi` panics. -/
theorem claimC3_witness :
    ciContains piCtx.consts "Pi" = true ∧ piCtx.set_variable "Pi" 7 = none :=
  ⟨by decide, claimC3_set_variable_panics piCtx "Pi" 7 (by decide)⟩

/-- C1 (code bug): after the input is exhausted with a grouping-open
still on the operator stack, `infix_to_rpn` is supposed to fail with
`InvalidExpression`; because the final drain tests
`is_grouping_close() || is_grouping_close()` (the same predicate twice,
never `is_grouping_open`), the leftover `(` is instead pushed into the
RPN output and the conversion returns `Ok`. -/
theorem claimC1_drain_passes_grouping_open :
    infix_to_rpn [Token.GroupingOpen '(', Token.Number (2 : Int)] arithCtx
      = .ok [Token.Number 2, Token.GroupingOpen '('] := rfl

/-- C2 counterexample: from the empty context, `set_variable("x", 1)`
followed by `add_constant("x", 2)` reaches a state in which the name `x`
is simultaneously present in the variables map and the constants map
(`add_constant` performs no check against the variables). -/
theorem claimC2_counterexample :
    ((execOps (DefaultContext.empty (N := Int))
        [CtxOp.setVariable "x" 1, CtxOp.addConstant "x" 2]).map
      (fun c => (ciContains c.vars "x", ciContains c.consts "x", exclusiveB c)))
      = some (true, true, false) := rfl

/-- C2 (amended): in every `DefaultContext` state reachable from a state
satisfying the exclusivity invariant (such as an empty or preloaded
context) by public operations, no name is simultaneously a variable and
a constant — provided every `add_constant` call uses a name that is not
currently a variable; without that proviso `add_constant` can break the
invariant. -/
theorem claimC2_exclusivity_preserved {N : Type} {ctx0 ctx1 : DefaultContext N}
    {ops : List (CtxOp N)} (hsafe : addConstSafe ctx0 ops = true)
    (hexec : execOps ctx0 ops = some ctx1) (hx : exclusiveB ctx0 = true) :
    exclusiveB ctx1 = true := by
  induction ops generalizing ctx0 with
  | nil =>
    simp only [execOps, Option.some.injEq] at hexec
    rwa [← hexec]
  | cons op rest ih =>
    simp only [execOps] at hexec
    cases happ : applyOp ctx0 op with
    | none => rw [happ] at hexec; cases hexec
    | some c =>
      rw [happ] at hexec
      simp only [addConstSafe, happ, Bool.and_eq_true] at hsafe
      exact ih hsafe.2 hexec (exclusiveB_applyOp hx hsafe.1 happ)

/-- C2 witness: a safe operation sequence from the empty context keeps
the invariant. -/
theorem claimC2_witness :
    exclusiveB ({ vars := [("x", 1)], consts := [("y", 2)], functions := [],
                  binary_functions := [], unary_functions := [],
                  config := Config.base } : DefaultContext Int) = true :=
  @claimC2_exclusivity_preserved Int DefaultContext.empty
    { vars := [("x", 1)], consts := [("y", 2)], functions := [],
      binary_functions := [], unary_functions := [], config := Config.base }
    [CtxOp.setVariable "x" 1, CtxOp.addConstant "y" 2]
    (by decide) rfl rfl

/-! ### Factorial lemmas (claim C8) -/

/-- The product loop started at `next = m` multiplies `total` by `m!` and
stops with `next = 0`. -/
theorem factorial_go_spec (m : Nat) (total : Int) :
    factorial_go m total (m : Int) = (total * (Nat.factorial m : Int), 0) := by
  induction m generalizing total with
  | zero => simp [factorial_go, Nat.factorial]
  | succ k ih =>
    have h1 : (1 : Int) ≤ ((k + 1 : Nat) : Int) := by exact_mod_cast Nat.succ_le_succ (Nat.zero_le k)
    have h2 : ((k + 1 : Nat) : Int) - 1 = (k : Int) := by push_cast; ring
    simp only [factorial_go, if_pos h1, h2, ih]
    rw [Nat.factorial_succ]
    simp only [Prod.mk.injEq, and_true]
    push_cast
    ring

/-- C8: for every operand `n` of the factorial operator `!` (at integer
operands, with the Γ-extension branches arbitrary): `n < 0` fails with
`NegativeValue`, and a non-negative `n` returns the iterative product
`n · (n−1) · … · 1`, with `0! = 1` and `1! = 1` (the Γ-branches are
unreachable on integers).  Confirmed. -/
theorem claimC8_factorial (gq : Int → Except Error Int)
    (gf : Int → Int → Except Error Int) (n : Int) :
    Factorial.call gq gf n =
      if n < 0 then .error (Error.fromKind .NegativeValue)
      else .ok ((Nat.factorial n.toNat : Nat) : Int) := by
  unfold Factorial.call
  by_cases h0 : n < 0
  · simp [h0]
  · rw [if_neg h0, if_neg h0]
    by_cases h1 : n = 0 ∨ n = 1
    · rw [if_pos h1]
      rcases h1 with rfl | rfl <;> simp [Nat.factorial]
    · rw [if_neg h1]
      have h2 : ¬ n < 1 := by omega
      rw [if_neg h2]
      have hm : (n - 1) = (((n - 1).toNat : Nat) : Int) := by omega
      unfold factorial_loop
      rw [hm, Int.toNat_natCast, factorial_go_spec]
      simp only [ne_eq, not_true_eq_false, if_false]
      have h3 : n.toNat = (n - 1).toNat + 1 := by omega
      rw [h3, Nat.factorial_succ]
      congr 1
      push_cast
      have h4 : (((n - 1).toNat : Nat) : Int) + 1 = n := by omega
      rw [h4]

/-! ### Implicit-multiplication no-op lemmas

The injection step leaves the operator stack unchanged in these
configurations, whatever the value of `implicit_mul`. -/

/-- No injection between a number and a binary operator. -/
@[simp] theorem inject_number_binop {N : Type} (cfg : Config) (a : N) (s : String)
    (ops : List (Token N)) :
    implicit_mul_inject cfg (.Number a) (some (.BinaryOperator s)) ops = ops := by
  unfold implicit_mul_inject
  cases cfg.implicit_mul <;> rfl

/-- No injection after a binary operator. -/
@[simp] theorem inject_binop {N : Type} (cfg : Config) (s : String)
    (next : Option (Token N)) (ops : List (Token N)) :
    implicit_mul_inject cfg (.BinaryOperator s) next ops = ops := by
  unfold implicit_mul_inject
  cases cfg.implicit_mul <;> rfl

/-- No injection at the end of the input. -/
@[simp] theorem inject_none {N : Type} (cfg : Config) (t : Token N)
    (ops : List (Token N)) :
    implicit_mul_inject cfg t none ops = ops := by
  unfold implicit_mul_inject
  cases cfg.implicit_mul <;> cases t <;> rfl

/-- C4: for token sequences `a op1 b op2 c` with both operators
registered: if `prec(op1) > prec(op2)`, or they are equal and `op1` is
left-associative, the RPN is `a b op1 c op2`; if they are equal and
`op1` is right-associative, the RPN is `a b c op2 op1`.  Confirmed. -/
theorem claimC4_precedence (ctx : DefaultContext Int) (a b c : Int)
    (op1 op2 : String) (f1 f2 : BinFnObj Int)
    (h1 : ctx.get_binary_function op1 = some f1)
    (h2 : ctx.get_binary_function op2 = some f2) :
    (f1.prec.toNat > f2.prec.toNat ∨ (f1.prec = f2.prec ∧ f1.assoc = .Left) →
      infix_to_rpn [.Number a, .BinaryOperator op1, .Number b,
                    .BinaryOperator op2, .Number c] ctx
        = .ok [.Number a, .Number b, .BinaryOperator op1,
               .Number c, .BinaryOperator op2]) ∧
    (f1.prec = f2.prec ∧ f1.assoc = .Right →
      infix_to_rpn [.Number a, .BinaryOperator op1, .Number b,
                    .BinaryOperator op2, .Number c] ctx
        = .ok [.Number a, .Number b, .Number c,
               .BinaryOperator op2, .BinaryOperator op1]) := by
  constructor
  · intro h
    simp [infix_to_rpn, syLoop, sy_step, push_number, push_binary_function,
          binary_pop_loop, Except.map, h1, h2, h, drain, Token.is_function,
          Token.is_grouping_close]
  · intro h
    have hcond : ¬(f1.prec.toNat > f2.prec.toNat
        ∨ (f1.prec = f2.prec ∧ f1.assoc = Associativity.Left)) := by
      rcases h with ⟨hp, ha⟩
      rw [hp, ha]
      simp
    simp [infix_to_rpn, syLoop, sy_step, push_number, push_binary_function,
          binary_pop_loop, Except.map, h1, h2, hcond, drain, Token.is_function,
          Token.is_grouping_close]

/-- C4 witness: `1 * 2 + 3` over the standard operators produces
`1 2 * 3 +`. -/
theorem claimC4_witness :
    infix_to_rpn [.Number 1, .BinaryOperator "*", .Number 2,
                  .BinaryOperator "+", .Number 3] arithCtx
      = .ok [.Number 1, .Number 2, .BinaryOperator "*",
             .Number 3, .BinaryOperator "+"] :=
  (claimC4_precedence arithCtx 1 2 3 "*" "+" mulFn plusFn rfl rfl).1
    (Or.inl (by decide))

/-- C5 counterexample, three parts against the claim over `mulCtx`
(implicit multiplication on).  First: a variable followed by a number
gets no injected `*` (the code tests `is_number`, true only of `Number`
tokens, so variable/constant-led pairs are not injected).  Second: a
number followed by a number gets no injected `*` either (the number-led
match arms do not include `Number`).  Third: the injected `*` does not
participate in precedence like an explicit `*`: `2 ^ (3) 4` produces
`2 3 4 * ^` (the injected `*` is pushed without the precedence pop, so
the `^` binds *after* it), whereas an explicit `*` would produce
`2 3 ^ 4 *`. -/
theorem claimC5_counterexample :
    infix_to_rpn [Token.Variable "x", Token.Number (2 : Int)] mulCtx
        = .ok [Token.Variable "x", Token.Number 2] ∧
    infix_to_rpn [Token.Number (10 : Int), Token.Number 2] mulCtx
        = .ok [Token.Number 10, Token.Number 2] ∧
    infix_to_rpn [Token.Number (2 : Int), Token.BinaryOperator "^",
        Token.GroupingOpen '(', Token.Number 3, Token.GroupingClose ')',
        Token.Number 4] mulCtx
        = .ok [Token.Number 2, Token.Number 3, Token.Number 4,
               Token.BinaryOperator "*", Token.BinaryOperator "^"] :=
  ⟨rfl, rfl, rfl⟩

/-- The adjacency condition of the amended claim C5, written from its
words (not from the code): the emitted token is a `Number` and the next
is a variable, constant, function or grouping-open, or the emitted token
is a grouping-close and the next is a number, variable, constant,
function or grouping-open.  Compared below with the source's injection
step. -/
def injectionExpected {N : Type} : Token N → Option (Token N) → Bool
  | .Number _, some (.Variable _) => true
  | .Number _, some (.Constant _) => true
  | .Number _, some (.Function _) => true
  | .Number _, some (.GroupingOpen _) => true
  | .GroupingClose _, some (.Number _) => true
  | .GroupingClose _, some (.Variable _) => true
  | .GroupingClose _, some (.Constant _) => true
  | .GroupingClose _, some (.Function _) => true
  | .GroupingClose _, some (.GroupingOpen _) => true
  | _, _ => false

/-- C5 (amended): with `implicit_mul` enabled, a `BinaryOperator("*")` is
pushed onto the operator stack (directly, without the precedence pop
loop, so it does not bind like an explicit `*`) *exactly when* the
emitted token is a `Number` and the next is a variable, constant,
function or grouping-open, or the emitted token is a grouping-close and
the next is a number, variable, constant, function or grouping-open.
First conjunct: the source's injection step equals that characterization,
for every token pair and operator stack (both directions of the
"exactly when").  Second and third conjuncts: end to end, a number
followed by a variable or constant yields `n x *`, and `( n ) m` yields
`n m *`. -/
theorem claimC5_injection (ctx : DefaultContext Int)
    (h : ctx.config.implicit_mul = true) :
    (∀ (t : Token Int) (next : Option (Token Int)) (ops : List (Token Int)),
      implicit_mul_inject ctx.config t next ops =
        if injectionExpected t next then .BinaryOperator "*" :: ops else ops) ∧
    (∀ (n : Int) (name : String),
      infix_to_rpn [.Number n, .Variable name] ctx
          = .ok [.Number n, .Variable name, .BinaryOperator "*"] ∧
      infix_to_rpn [.Number n, .Constant name] ctx
          = .ok [.Number n, .Constant name, .BinaryOperator "*"]) ∧
    (∀ (n m : Int), ctx.config.get_group_symbol '(' = some ⟨'(', ')'⟩ →
      infix_to_rpn [.GroupingOpen '(', .Number n, .GroupingClose ')',
                    .Number m] ctx
        = .ok [.Number n, .Number m, .BinaryOperator "*"]) := by
  refine ⟨?_, ?_, ?_⟩
  · intro t next ops
    unfold implicit_mul_inject injectionExpected
    rw [h]
    rcases next with _ | u
    · cases t <;> rfl
    · cases t <;> cases u <;> rfl
  · intro n name
    constructor <;>
      simp [infix_to_rpn, syLoop, sy_step, push_number, implicit_mul_inject, h,
            drain, Token.is_number, Token.is_grouping_close]
  · intro n m hsym
    simp [infix_to_rpn, syLoop, sy_step, push_number, implicit_mul_inject, h,
          drain, grouping_close_pop_loop, grouping_close_fn_pop, hsym,
          Token.is_number, Token.is_grouping_close, Except.map]

/-- C5 witness: `5 x` under `mulCtx` becomes `5 x *`. -/
theorem claimC5_witness :
    infix_to_rpn [Token.Number (5 : Int), Token.Variable "x"] mulCtx
      = .ok [Token.Number 5, Token.Variable "x", Token.BinaryOperator "*"] :=
  ((claimC5_injection mulCtx rfl).2.1 5 "x").1

/-- The grouping-close pop loop succeeds whenever the operator-stack top
is a grouping-open whose configured pair closes with the incoming
character (whatever `arg_count` and the rest of the stack hold). -/
theorem grouping_close_pop_loop_matched (ctx : DefaultContext Int) (o c : Char)
    (output ops : List (Token Int)) (ac : List Nat)
    (hsym : ctx.config.get_group_symbol o = some ⟨o, c⟩) :
    grouping_close_pop_loop ctx c output (.GroupingOpen o :: ops) ac
      = .ok (grouping_close_fn_pop output ops ac) := by
  simp only [grouping_close_pop_loop, hsym, beq_self_eq_true, if_true]

/-- C6 counterexample: the empty pair `()` standing alone — a
grouping-close immediately preceded by its matching open, the open being
the first token — is *not* rejected: the `pos > 1` guard skips the
empty-grouping check and `infix_to_rpn` returns `Ok` with an empty RPN
(the claim demands an `InvalidInput` failure). -/
theorem claimC6_counterexample :
    infix_to_rpn [Token.GroupingOpen '(', Token.GroupingClose ')']
        (arithCtx : DefaultContext Int) = .ok [] := rfl

/-- C6 (amended): the empty-grouping rejection holds only for closes at
position ≥ 2 that the loop actually reaches: when the shunting-yard loop
is at a grouping-close at position `pos ≥ 2` whose matching open is the
previous token (hence on top of the operator stack) and the token before
that open is not a function, the conversion fails with `InvalidInput`;
the pair at positions 0/1 escapes the check. -/
theorem claimC6_empty_grouping (ctx : DefaultContext Int) (ts : List (Token Int))
    (pos : Nat) (o c : Char) (rest : List (Token Int)) (st : SYState Int)
    (ops : List (Token Int))
    (hsym : ctx.config.get_group_symbol o = some ⟨o, c⟩)
    (hopen : ctx.config.get_group_open_for c = some o)
    (hpos : 2 ≤ pos)
    (hprev : ts.getD (pos - 1) .Unknown = .GroupingOpen o)
    (hfn : (ts.getD (pos - 2) .Unknown).is_function = false)
    (hops : st.operators = .GroupingOpen o :: ops) :
    resultKind (syLoop ctx ts pos (.GroupingClose c :: rest) st)
      = some .InvalidInput := by
  have hr := grouping_close_pop_loop_matched ctx o c st.output ops st.arg_count hsym
  have hgt : pos > 1 := by omega
  simp only [syLoop, sy_step, hops, hr, hprev, hopen, hfn, hgt, Option.elim,
             beq_self_eq_true, Bool.not_false, Bool.and_true, if_true,
             resultKind]
  rfl

/-- C6 witness: the loop state reached by `1 ( )` at the close (position
2) fails with `InvalidInput`. -/
theorem claimC6_witness :
    resultKind (syLoop arithCtx
        [Token.Number (1 : Int), Token.GroupingOpen '(', Token.GroupingClose ')']
        2 [Token.GroupingClose ')']
        ⟨[Token.Number 1], [Token.GroupingOpen '('], [], []⟩)
      = some .InvalidInput :=
  claimC6_empty_grouping arithCtx
    [Token.Number 1, Token.GroupingOpen '(', Token.GroupingClose ')']
    2 '(' ')' [] ⟨[Token.Number 1], [Token.GroupingOpen '('], [], []⟩ []
    rfl rfl (by decide) rfl rfl rfl

/-- C10: when the RPN evaluation loop reaches a `Function` token with
recorded argument count `k` larger than the value stack, the
`InvalidArgumentCount` error constructed for the missing arguments is
discarded without being returned: the function is invoked with exactly
the values that were available (so the evaluation can still return `Ok`
for a function accepting fewer arguments).  Confirmed. -/
theorem claimC10_function_underflow (ctx : DefaultContext Int) (name : String)
    (f : FuncObj Int) (k : Nat) (values : List Int) (rest : List (Token Int))
    (hf : ctx.get_function name = some f) (hlen : values.length < k) :
    rpn_eval_loop ctx (.Function name :: rest) values (some k) =
      match f.call values.reverse with
      | .ok r => rpn_eval_loop ctx rest [r] none
      | .error e => .error e := by
  have htake : values.take k = values := List.take_of_length_le (le_of_lt hlen)
  have hdrop : values.drop k = [] := List.drop_eq_nil_of_le (le_of_lt hlen)
  simp only [rpn_eval_loop, hf, htake, hdrop]
  cases f.call values.reverse <;> rfl

/-- C10 witness: evaluating the RPN of `f()` — `ArgCount 1` then
`Function f` on an empty value stack — invokes `f` with no arguments and
returns `Ok 0`. -/
theorem claimC10_witness :
    ([] : List Int).length < 1 ∧
      rpn_eval_loop sumCtx [Token.Function "f"] [] (some 1) = .ok 0 :=
  ⟨by decide,
   (claimC10_function_underflow sumCtx "f" sumAllFn 1 [] [] rfl (by decide)).trans
     rfl⟩

end MathEngine
